import Mathlib

/-
Verification of the WiFi-setup scan poller (src/html/js/setup_wifi.js).

The script keeps two globals: `setup_wifi_ssids`, an insertion-ordered
string-keyed object mapping SSIDs to the last access-point record seen for
that SSID, and `setup_wifi_scan_timer`, the handle of the most recently
scheduled `setTimeout`.  `setup_wifi_scan()` issues a GET to
`wifi/scan`; its success callback merges the response's `access-points`
into the table, rebuilds the table-body HTML, writes it into the
`#setup_wifi_ssids tbody` region, and reschedules itself 5000 ms later.
`setup_wifi_on_activate()` writes a placeholder row and calls
`setup_wifi_scan()` directly; `setup_wifi_on_deactivate()` calls
`clearTimeout` on the stored handle.

The embedding below models the pure data transformations directly and the
stateful behaviour as a small-step transition system over the browser's
single-threaded event model (router events, response arrivals, timer
firings).
-/

namespace SetupWifi

/-- An access-point record as delivered by the `wifi/scan` endpoint.  The
script reads exactly the fields `ssid`, `auth` and `quality`
(src/html/js/setup_wifi.js lines 24, 30, 32); identity key is `ssid`. -/
structure AP where
  ssid : String
  auth : String
  quality : Int
deriving DecidableEq

/-- JavaScript property assignment `setup_wifi_ssids[ap["ssid"]] = ap`
(line 24) on an insertion-ordered string-keyed object: if the key exists
the value is replaced in place, otherwise the pair is appended. -/
def upsert : List (String × AP) → AP → List (String × AP)
  | [], ap => [(ap.ssid, ap)]
  | (k, v) :: rest, ap =>
      if k = ap.ssid then (k, ap) :: rest else (k, v) :: upsert rest ap

/-- The merge loop `for (var i in aps) { ... setup_wifi_ssids[ap["ssid"]] = ap }`
(lines 22-25): upsert every record of the response, in sequence order. -/
def processAps (m : List (String × AP)) (aps : List AP) : List (String × AP) :=
  aps.foldl upsert m

/-- The merge loop applied to a whole sequence of successful responses. -/
def processResps (m : List (String × AP)) (resps : List (List AP)) :
    List (String × AP) :=
  resps.foldl processAps m

/-- Reading `setup_wifi_ssids[key]`: the record stored under a key, if any. -/
def lookupSsid (m : List (String × AP)) (key : String) : Option AP :=
  (m.find? (fun e => e.1 == key)).map (fun e => e.2)

/-- The last record carrying the given ssid in a sequence of records, if any. -/
def lastOcc (aps : List AP) (key : String) : Option AP :=
  aps.foldl (fun acc ap => if ap.ssid = key then some ap else acc) none

/-- Modelled from the spec: `String.prototype.format`, used at lines 30 and
32, is not part of src/.  Spec section 9 describes it as positional
string templating: one left-to-right pass over the template replaces each
placeholder `{n}` (n a digit) by the n-th argument verbatim; a placeholder
with no matching argument is left as it is; everything else is copied. -/
def formatChars : List Char → List String → List Char
  | [], _ => []
  | '{' :: d :: '}' :: rest, args =>
      if d.isDigit then
        match args.get? (d.toNat - 48) with
        | some a => a.data ++ formatChars rest args
        | none => '{' :: d :: '}' :: formatChars rest args
      else '{' :: formatChars (d :: '}' :: rest) args
  | c :: rest, args => c :: formatChars rest args

/-- Modelled from the spec: string-level wrapper for [formatChars]. -/
def format (tpl : String) (args : List String) : String :=
  ⟨formatChars tpl.data args⟩

/-- Template of the first row piece (line 30). -/
def tplRow : String := "<tr><th scope=\"row\">{0}</th><td>{1}</td><td>{2}</td>"

/-- The second row piece (line 31), a plain string. -/
def tplCenter : String := "<td class=\"text-center\">"

/-- Template of the third row piece (line 32). -/
def tplButton : String :=
  "<button class=\"btn btn-sm btn-outline-success\" ssid=\"{0}\">Connect</button></td></tr>\n"

/-- One table row, the three `res +=` pieces of lines 30-32 concatenated.
Numbers reach the template through JavaScript string conversion, modelled
by `toString` on `quality`. -/
def rowHtml (ap : AP) : String :=
  format tplRow [ap.ssid, ap.auth, toString ap.quality]
    ++ tplCenter
    ++ format tplButton [ap.ssid]

/-- The render loop (lines 27-33): starting from the empty string, append
one row per entry of the table, in table order. -/
def render (m : List (String × AP)) : String :=
  m.foldl (fun res e => res ++ rowHtml e.2) ""

/-- A pending `setTimeout` entry: (handle, delay in milliseconds). -/
abbrev Timer := Nat × Nat

/-- The placeholder row written by `setup_wifi_on_activate` (line 43). -/
def scanningRow : String := "<tr><td>Scanning...</td></tr>"

/-- The program state: the two globals (`ssids` for `setup_wifi_ssids`,
`timerVar` for `setup_wifi_scan_timer`, `none` while still undefined), the
browser resources they control (the multiset `pending` of scheduled
not-yet-fired timers, the number `inFlight` of outstanding scan requests,
the contents `dom` of the target tbody region), the router's view of
whether the page is active, and `dispatches`, counting every scan request
ever issued. -/
structure St where
  ssids : List (String × AP)
  timerVar : Option Nat
  pending : List Timer
  nextId : Nat
  inFlight : Nat
  dom : String
  active : Bool
  dispatches : Nat
deriving DecidableEq

/-- The rescheduling delay of line 36. -/
def scanPeriodMs : Nat := 5000

/-- `setup_wifi_scan()` up to its only synchronous effect: dispatch the
asynchronous `$.getJSON(api_base + 'wifi/scan', ...)` request (line 18)
and return immediately. -/
def setup_wifi_scan (s : St) : St :=
  { s with inFlight := s.inFlight + 1, dispatches := s.dispatches + 1 }

/-- The `$.getJSON` success callback (lines 18-37).  `data["access-points"]`
may be absent (`none`); `for (var i in aps)` over `undefined` iterates
zero times, so a missing field behaves like an empty sequence.  The
callback merges, re-renders the whole table into the tbody region, and
reschedules via `setup_wifi_scan_timer = setTimeout(setup_wifi_scan, 5000)`
(line 36), storing the fresh handle. -/
def scanCallback (s : St) (apsField : Option (List AP)) : St :=
  let aps := apsField.getD []
  let m := processAps s.ssids aps
  { s with ssids := m, dom := render m,
           pending := s.pending ++ [(s.nextId, scanPeriodMs)],
           timerVar := some s.nextId, nextId := s.nextId + 1,
           inFlight := s.inFlight - 1 }

/-- `setup_wifi_on_activate()` (lines 40-45): write the placeholder row
into the tbody region, then call `setup_wifi_scan()` directly. -/
def setup_wifi_on_activate (s : St) : St :=
  setup_wifi_scan { s with dom := scanningRow, active := true }

/-- `clearTimeout` on the stored handle: cancels that timer if it is still
pending; clearing a fired, cleared or undefined handle is a silent no-op. -/
def clearStored (pending : List Timer) (tv : Option Nat) : List Timer :=
  match tv with
  | none => pending
  | some t => pending.eraseP (fun p => p.1 == t)

/-- `setup_wifi_on_deactivate()` (lines 47-51):
`clearTimeout(setup_wifi_scan_timer)`; the variable itself is not reset. -/
def setup_wifi_on_deactivate (s : St) : St :=
  { s with pending := clearStored s.pending s.timerVar, active := false }

/-- External events of the single-threaded browser model: router
activation and deactivation, arrival of a scan response (success carrying
the optional `access-points` field, or a network / JSON-parse failure, for
which `$.getJSON` runs no registered handler at all), and the firing of a
pending timer. -/
inductive Ev where
  | activate
  | deactivate
  | respSuccess (apsField : Option (List AP))
  | respFail
  | timerFire (t : Nat)
deriving DecidableEq

/-- Small-step semantics.  `none` means the event is not enabled: a
response can only arrive while a request is in flight, and only a pending
timer can fire (firing removes it and runs `setup_wifi_scan`). -/
def step (s : St) : Ev → Option St
  | .activate => some (setup_wifi_on_activate s)
  | .deactivate => some (setup_wifi_on_deactivate s)
  | .respSuccess o => if s.inFlight = 0 then none else some (scanCallback s o)
  | .respFail => if s.inFlight = 0 then none else
      some { s with inFlight := s.inFlight - 1 }
  | .timerFire t =>
      if s.pending.any (fun p => p.1 == t) then
        some (setup_wifi_scan { s with pending := s.pending.eraseP (fun p => p.1 == t) })
      else none

/-- The state at script load: both globals empty/undefined, nothing
scheduled, nothing in flight. -/
def St.init : St :=
  { ssids := [], timerVar := none, pending := [], nextId := 0,
    inFlight := 0, dom := "", active := false, dispatches := 0 }

/-- Run a sequence of events from a state. -/
def run (s : St) : List Ev → Option St
  | [] => some s
  | e :: es => (step s e).bind (fun s1 => run s1 es)

/-- Runs in which `activate` is only ever delivered in a quiescent state
(no request in flight, no pending timer) — the discipline of a router
that waits for the poll chain of the previous activation to die out. -/
inductive QuietActivateRun : St → List Ev → St → Prop where
  | nil (s : St) : QuietActivateRun s [] s
  | cons (s s1 s2 : St) (e : Ev) (es : List Ev) (h : step s e = some s1)
      (hq : e = Ev.activate → s.inFlight = 0 ∧ s.pending = [])
      (hrest : QuietActivateRun s1 es s2) : QuietActivateRun s (e :: es) s2

/-- A concrete access point used by witnesses. -/
def apA : AP := { ssid := "A", auth := "WPA2", quality := 80 }

/-- Witness state: one scan request in flight. -/
def stWithRequest : St := { St.init with inFlight := 1 }

/-- Witness state: one pending timer whose handle is the stored one. -/
def stWithTimer : St := { St.init with pending := [(7, 5000)], timerVar := some 7 }

/-- Witness state: one entry already in the known-APs table. -/
def stWithEntry : St := { St.init with ssids := [(apA.ssid, apA)] }

/-- Witness state: the request of [stWithRequest] just failed. -/
def stAfterFail : St := { stWithRequest with inFlight := stWithRequest.inFlight - 1 }

/-
Helper lemmas about the table operations.
-/

lemma lookupSsid_nil (key : String) : lookupSsid [] key = none := rfl

lemma lookupSsid_cons (k : String) (v : AP) (rest : List (String × AP)) (key : String) :
    lookupSsid ((k, v) :: rest) key = if k = key then some v else lookupSsid rest key := by
  by_cases h : k = key <;> simp [lookupSsid, List.find?_cons, h]

lemma upsert_nil (ap : AP) : upsert [] ap = [(ap.ssid, ap)] := rfl

lemma upsert_cons (k : String) (v : AP) (rest : List (String × AP)) (ap : AP) :
    upsert ((k, v) :: rest) ap =
      if k = ap.ssid then (k, ap) :: rest else (k, v) :: upsert rest ap := rfl

lemma lookupSsid_upsert (m : List (String × AP)) (ap : AP) (key : String) :
    lookupSsid (upsert m ap) key = if key = ap.ssid then some ap else lookupSsid m key := by
  induction m with
  | nil =>
      rw [upsert_nil, lookupSsid_cons]
      by_cases h : key = ap.ssid
      · simp [h]
      · have h3 : ¬ ap.ssid = key := fun hh => h hh.symm
        simp [h, h3]
  | cons e rest ih =>
      obtain ⟨k, v⟩ := e
      rw [upsert_cons]
      by_cases hk : k = ap.ssid
      · rw [if_pos hk, lookupSsid_cons, lookupSsid_cons]
        by_cases hkey : k = key
        · have h2 : key = ap.ssid := hkey ▸ hk
          simp [hkey, h2]
        · have h2 : ¬ key = ap.ssid := fun hh => hkey (hk.trans hh.symm)
          simp [hkey, h2]
      · rw [if_neg hk, lookupSsid_cons, lookupSsid_cons, ih]
        by_cases hkey : k = key
        · have h2 : ¬ key = ap.ssid := fun hh => hk (hkey.trans hh)
          simp [hkey, h2]
        · by_cases h2 : key = ap.ssid <;> simp [hkey, h2, hk]

lemma lastOcc_nil (key : String) : lastOcc [] key = none := rfl

lemma foldl_lastOcc (key : String) (aps : List AP) (acc : Option AP) :
    aps.foldl (fun acc ap => if ap.ssid = key then some ap else acc) acc =
      ((lastOcc aps key).elim acc some) := by
  induction aps generalizing acc with
  | nil => simp [lastOcc_nil]
  | cons a as ih =>
      show as.foldl _ (if a.ssid = key then some a else acc) = _
      rw [ih]
      have hcons : lastOcc (a :: as) key =
          ((lastOcc as key).elim (if a.ssid = key then some a else none) some) := by
        show as.foldl _ (if a.ssid = key then some a else none) = _
        rw [ih]
      rw [hcons]
      cases lastOcc as key <;> by_cases h : a.ssid = key <;> simp [h]

lemma lastOcc_cons (a : AP) (as : List AP) (key : String) :
    lastOcc (a :: as) key =
      ((lastOcc as key).elim (if a.ssid = key then some a else none) some) := by
  show as.foldl _ (if a.ssid = key then some a else none) = _
  rw [foldl_lastOcc]

lemma lookupSsid_processAps (m : List (String × AP)) (aps : List AP) (key : String) :
    lookupSsid (processAps m aps) key =
      ((lastOcc aps key).elim (lookupSsid m key) some) := by
  induction aps generalizing m with
  | nil => simp [processAps, lastOcc_nil]
  | cons a as ih =>
      show lookupSsid (processAps (upsert m a) as) key = _
      rw [ih, lookupSsid_upsert, lastOcc_cons]
      cases lastOcc as key with
      | some b => simp
      | none =>
          by_cases h : a.ssid = key
          · simp [h]
          · have h3 : ¬ key = a.ssid := fun hh => h hh.symm
            simp [h, h3]

lemma mem_keys_iff_lookup (m : List (String × AP)) (key : String) :
    key ∈ m.map Prod.fst ↔ (lookupSsid m key).isSome := by
  induction m with
  | nil => simp [lookupSsid_nil]
  | cons e rest ih =>
      obtain ⟨k, v⟩ := e
      rw [lookupSsid_cons]
      by_cases h : k = key
      · simp [h]
      · have h3 : ¬ key = k := fun hh => h hh.symm
        simp [h, h3, ih]

lemma lastOcc_isSome_iff (aps : List AP) (key : String) :
    (lastOcc aps key).isSome ↔ key ∈ aps.map AP.ssid := by
  induction aps with
  | nil => simp [lastOcc_nil]
  | cons a as ih =>
      rw [lastOcc_cons]
      cases h : lastOcc as key with
      | some b =>
          rw [h] at ih
          simp [Option.elim, ← ih]
      | none =>
          rw [h] at ih
          by_cases hs : a.ssid = key
          · simp [Option.elim, hs]
          · have h3 : ¬ key = a.ssid := fun hh => hs hh.symm
            simp [Option.elim, hs, h3, ← ih]

lemma processResps_eq_flatten (m : List (String × AP)) (resps : List (List AP)) :
    processResps m resps = processAps m resps.flatten := by
  induction resps generalizing m with
  | nil => simp [processResps, processAps]
  | cons r rs ih =>
      show processResps (processAps m r) rs = _
      rw [ih]
      simp [processAps, List.foldl_append]

/-
Helper lemmas about the rendered HTML.
-/

lemma format_tplRow (a b c : String) :
    format tplRow [a, b, c] =
      "<tr><th scope=\"row\">" ++ a ++ "</th><td>" ++ b ++ "</td><td>" ++ c ++ "</td>" := by
  apply String.ext
  simp only [String.data_append, List.append_assoc]
  obtain ⟨la⟩ := a; obtain ⟨lb⟩ := b; obtain ⟨lc⟩ := c
  rfl

lemma format_tplButton (a : String) :
    format tplButton [a] =
      "<button class=\"btn btn-sm btn-outline-success\" ssid=\"" ++ a
        ++ "\">Connect</button></td></tr>\n" := by
  apply String.ext
  simp only [String.data_append, List.append_assoc]
  obtain ⟨la⟩ := a
  rfl

lemma rowHtml_eq (ap : AP) :
    rowHtml ap =
      "<tr><th scope=\"row\">" ++ ap.ssid ++ "</th><td>" ++ ap.auth ++ "</td><td>"
        ++ toString ap.quality
        ++ "</td><td class=\"text-center\"><button class=\"btn btn-sm btn-outline-success\" ssid=\""
        ++ ap.ssid ++ "\">Connect</button></td></tr>\n" := by
  rw [rowHtml, format_tplRow, format_tplButton]
  apply String.ext
  simp only [String.data_append, List.append_assoc]
  rfl

/-
Helper lemmas about the transition system.
-/

lemma clearStored_nil_pending (tv : Option Nat) : clearStored [] tv = [] := by
  cases tv <;> rfl

lemma quiet_step (s s1 : St) (e : Ev) (he : e ≠ Ev.activate)
    (hp : s.pending = []) (hf : s.inFlight = 0) (h : step s e = some s1) :
    s1.pending = [] ∧ s1.inFlight = 0 ∧ s1.dispatches = s.dispatches ∧ s1.ssids = s.ssids := by
  cases e with
  | activate => exact absurd rfl he
  | deactivate =>
      simp only [step, Option.some.injEq] at h
      subst h
      exact ⟨by simp [setup_wifi_on_deactivate, hp, clearStored_nil_pending],
             hf, rfl, rfl⟩
  | respSuccess o => simp [step, hf] at h
  | respFail => simp [step, hf] at h
  | timerFire t => simp [step, hp] at h

lemma quiet_run (evs : List Ev) (s s' : St) (hA : Ev.activate ∉ evs)
    (hp : s.pending = []) (hf : s.inFlight = 0) (h : run s evs = some s') :
    s'.dispatches = s.dispatches ∧ s'.pending = [] ∧ s'.inFlight = 0 ∧ s'.ssids = s.ssids := by
  induction evs generalizing s with
  | nil =>
      simp only [run, Option.some.injEq] at h
      subst h
      exact ⟨rfl, hp, hf, rfl⟩
  | cons e es ih =>
      rw [run] at h
      cases hs : step s e with
      | none => rw [hs] at h; simp at h
      | some s1 =>
          rw [hs] at h
          simp only [Option.some_bind] at h
          have hne : e ≠ Ev.activate := fun heq => hA (heq ▸ List.mem_cons_self e es)
          obtain ⟨q1, q2, q3, q4⟩ := quiet_step s s1 e hne hp hf hs
          have hA2 : Ev.activate ∉ es := fun hm => hA (List.mem_cons_of_mem e hm)
          obtain ⟨d1, d2, d3, d4⟩ := ih s1 hA2 q1 q2 h
          exact ⟨d1.trans q3, d2, d3, d4.trans q4⟩

lemma clearStored_length_le (pending : List Timer) (tv : Option Nat) :
    (clearStored pending tv).length ≤ pending.length := by
  cases tv with
  | none => exact Nat.le_refl _
  | some t => exact List.length_eraseP_le pending

lemma outstanding_step (s s1 : St) (e : Ev) (h : step s e = some s1)
    (hq : e = Ev.activate → s.inFlight = 0 ∧ s.pending = [])
    (hinv : s.inFlight + s.pending.length ≤ 1) :
    s1.inFlight + s1.pending.length ≤ 1 := by
  cases e with
  | activate =>
      obtain ⟨h1, h2⟩ := hq rfl
      simp only [step, Option.some.injEq] at h
      subst h
      simp [setup_wifi_on_activate, setup_wifi_scan, h1, h2]
  | deactivate =>
      simp only [step, Option.some.injEq] at h
      subst h
      have hle := clearStored_length_le s.pending s.timerVar
      simp only [setup_wifi_on_deactivate]
      omega
  | respSuccess o =>
      by_cases hf : s.inFlight = 0
      · simp [step, hf] at h
      · simp only [step, hf, ite_false, if_false, Option.some.injEq] at h
        subst h
        simp only [scanCallback, List.length_append, List.length_cons, List.length_nil]
        omega
  | respFail =>
      by_cases hf : s.inFlight = 0
      · simp [step, hf] at h
      · simp only [step, hf, ite_false, if_false, Option.some.injEq] at h
        subst h
        show s.inFlight - 1 + s.pending.length ≤ 1
        omega
  | timerFire t =>
      cases hany : s.pending.any (fun p => p.1 == t) with
      | false => simp [step, hany] at h
      | true =>
          simp only [step, hany, if_true, ite_true, Option.some.injEq] at h
          subst h
          cases hp : s.pending with
          | nil => rw [hp] at hany; simp at hany
          | cons p rest =>
              have hr : rest = [] := by
                rw [hp] at hinv
                simp only [List.length_cons] at hinv
                have : rest.length = 0 := by omega
                exact List.length_eq_zero.mp this
              subst hr
              rw [hp] at hany
              simp only [List.any_cons, List.any_nil, Bool.or_false] at hany
              rw [hp] at hinv
              simp only [List.length_cons, List.length_nil] at hinv
              simp only [setup_wifi_scan, hp, List.eraseP_cons, hany, cond_true,
                List.length_nil]
              omega

lemma quietRun_outstanding (s s' : St) (evs : List Ev) (h : QuietActivateRun s evs s')
    (hinv : s.inFlight + s.pending.length ≤ 1) :
    s'.inFlight + s'.pending.length ≤ 1 := by
  induction h with
  | nil s => exact hinv
  | cons s s1 s2 e es hstep hq hrest ih => exact ih (outstanding_step s s1 e hstep hq hinv)

lemma clearStored_eq_of_not_stored (pending : List Timer) (tv : Option Nat)
    (h : ∀ p ∈ pending, tv ≠ some p.1) : clearStored pending tv = pending := by
  cases tv with
  | none => rfl
  | some t =>
      refine List.eraseP_of_forall_not (fun p hp => ?_)
      simp only [beq_iff_eq]
      exact fun he => (h p hp) (by rw [he])

lemma clearStored_eq_nil (pending : List Timer) (tv : Option Nat)
    (hall : ∀ p ∈ pending, tv = some p.1)
    (hnd : (pending.map Prod.fst).Nodup) : clearStored pending tv = [] := by
  cases hp : pending with
  | nil => exact hp ▸ clearStored_nil_pending tv
  | cons p rest =>
      have htv : tv = some p.1 := hall p (hp ▸ List.mem_cons_self p rest)
      have hr : rest = [] := by
        cases hr : rest with
        | nil => rfl
        | cons q rest2 =>
            have hq : tv = some q.1 := hall q (by
              rw [hp, hr]
              exact List.mem_cons_of_mem p (List.mem_cons_self q rest2))
            have heq : q.1 = p.1 := by
              rw [htv] at hq
              exact (Option.some.injEq _ _ ▸ hq).symm
            rw [hp, hr] at hnd
            simp only [List.map_cons, List.nodup_cons, List.mem_cons] at hnd
            exact absurd (Or.inl heq.symm) hnd.1
      subst hr
      rw [htv]
      simp [clearStored, List.eraseP_cons]

/-
Claim theorems.
-/

/-- Claim C1: after processing any sequence of successful scan responses
from script load, the known-APs table contains exactly the SSIDs appearing
across all responses, each mapped to the entire record of its most recent
occurrence (whole-record overwrite, last write wins). -/
theorem merge_last_write_wins (resps : List (List AP)) (key : String) :
    lookupSsid (processResps [] resps) key = lastOcc resps.flatten key ∧
    (key ∈ (processResps [] resps).map Prod.fst ↔ key ∈ resps.flatten.map AP.ssid) := by
  have h1 : lookupSsid (processResps [] resps) key = lastOcc resps.flatten key := by
    rw [processResps_eq_flatten, lookupSsid_processAps]
    cases lastOcc resps.flatten key <;> simp [lookupSsid_nil]
  refine ⟨h1, ?_⟩
  rw [mem_keys_iff_lookup, h1]
  exact lastOcc_isSome_iff resps.flatten key

/-- Claim C9: within one successful response, records are upserted in
sequence order, so for any key the table afterwards holds the last record
of the response with that ssid, and keys not occurring in the response
keep their previous record. -/
theorem dup_ssid_last_wins (s : St) (aps : List AP) (key : String) :
    lookupSsid (scanCallback s (some aps)).ssids key =
      ((lastOcc aps key).elim (lookupSsid s.ssids key) some) :=
  lookupSsid_processAps s.ssids aps key

/-- Claim C8: rendering is a pure function of the known-APs table — two
success cycles that leave the table unchanged produce identical DOM
output — and the output is one row per table entry, each row showing the
entry's ssid, auth and quality and a Connect button carrying the ssid as
an attribute. -/
theorem render_deterministic :
    (∀ s : St, (scanCallback (scanCallback s (some [])) (some [])).dom =
        (scanCallback s (some [])).dom) ∧
    (∀ m : List (String × AP), render m = String.join (m.map (fun e => rowHtml e.2))) ∧
    (∀ ap : AP, rowHtml ap =
      "<tr><th scope=\"row\">" ++ ap.ssid ++ "</th><td>" ++ ap.auth ++ "</td><td>"
        ++ toString ap.quality
        ++ "</td><td class=\"text-center\"><button class=\"btn btn-sm btn-outline-success\" ssid=\""
        ++ ap.ssid ++ "\">Connect</button></td></tr>\n") := by
  refine ⟨fun s => rfl, fun m => ?_, rowHtml_eq⟩
  simp only [render, String.join, List.foldl_map]

/-- Claim C10: the renderer embeds ssid, auth and quality verbatim, with
no escaping: each row is literally template text concatenated with the
raw field strings, in the cells and in the Connect button's ssid
attribute alike. -/
theorem render_no_escaping (ap : AP) :
    rowHtml ap =
      "<tr><th scope=\"row\">" ++ ap.ssid ++ "</th><td>" ++ ap.auth ++ "</td><td>"
        ++ toString ap.quality
        ++ "</td><td class=\"text-center\"><button class=\"btn btn-sm btn-outline-success\" ssid=\""
        ++ ap.ssid ++ "\">Connect</button></td></tr>\n" ∧
    (rowHtml ap).data =
      ("<tr><th scope=\"row\">".data) ++ ap.ssid.data ++ ("</th><td>".data)
        ++ ap.auth.data ++ ("</td><td>".data) ++ (toString ap.quality).data
        ++ ("</td><td class=\"text-center\"><button class=\"btn btn-sm btn-outline-success\" ssid=\"".data)
        ++ ap.ssid.data ++ ("\">Connect</button></td></tr>\n".data) := by
  refine ⟨rowHtml_eq ap, ?_⟩
  rw [rowHtml_eq ap]
  simp [String.data_append, List.append_assoc]

/-- Claim C7: `setup_wifi_on_activate` first replaces the target region
with the single placeholder row and then dispatches a scan synchronously:
in the resulting state the region shows the placeholder, one more request
has been dispatched and is in flight, and no timer was involved. -/
theorem activate_immediate (s : St) :
    step s Ev.activate = some (setup_wifi_on_activate s) ∧
    (setup_wifi_on_activate s).dom = "<tr><td>Scanning...</td></tr>" ∧
    (setup_wifi_on_activate s).dispatches = s.dispatches + 1 ∧
    (setup_wifi_on_activate s).inFlight = s.inFlight + 1 ∧
    (setup_wifi_on_activate s).pending = s.pending ∧
    (setup_wifi_on_activate s).timerVar = s.timerVar :=
  ⟨rfl, rfl, rfl, rfl, rfl, rfl⟩

/-- Claim C3: a response arriving after deactivation is not guarded
against: even with `active = false`, the success callback runs in full —
it merges the records, renders into the target region, and schedules the
next scan 5000 ms later, storing the fresh handle. -/
theorem stale_response_still_handled (s : St) (aps : List AP)
    (_hact : s.active = false) (hIF : s.inFlight ≠ 0) :
    step s (Ev.respSuccess (some aps)) = some (scanCallback s (some aps)) ∧
    (scanCallback s (some aps)).ssids = processAps s.ssids aps ∧
    (scanCallback s (some aps)).dom = render (processAps s.ssids aps) ∧
    (scanCallback s (some aps)).pending = s.pending ++ [(s.nextId, 5000)] ∧
    (scanCallback s (some aps)).timerVar = some s.nextId :=
  ⟨by simp [step, hIF], rfl, rfl, rfl, rfl⟩

theorem stale_response_still_handled_witness :
    step stWithRequest (Ev.respSuccess (some [apA])) = some (scanCallback stWithRequest (some [apA])) ∧
    (scanCallback stWithRequest (some [apA])).ssids = processAps stWithRequest.ssids [apA] ∧
    (scanCallback stWithRequest (some [apA])).dom = render (processAps stWithRequest.ssids [apA]) ∧
    (scanCallback stWithRequest (some [apA])).pending = stWithRequest.pending ++ [(stWithRequest.nextId, 5000)] ∧
    (scanCallback stWithRequest (some [apA])).timerVar = some stWithRequest.nextId :=
  stale_response_still_handled stWithRequest [apA] rfl (by decide)

/-- Claim C2 counterexample: a well-formed response that merely lacks the
`access-points` field is handled by the success callback, which treats it
as an empty sequence: a next poll IS scheduled (one pending timer), and
firing it dispatches a further scan with no reactivation, so the poll
chain does not stop. -/
theorem scan_failure_cex :
    ((run St.init [Ev.activate, Ev.respSuccess none]).map
      (fun s => s.pending.length) = some 1) ∧
    ((run St.init [Ev.activate, Ev.respSuccess none, Ev.timerFire 0]).map
      St.dispatches = some 2) ∧
    Ev.activate ∉ [Ev.respSuccess none, Ev.timerFire 0] :=
  ⟨rfl, rfl, by decide⟩

/-- Claim C2 (amended): a network error or JSON-parse failure runs no
callback — the state changes only by the request completing — and if the
state is then quiescent the poll chain stops: without a reactivation no
further scan is ever dispatched and nothing is ever pending.  A response
missing `access-points`, however, is processed by the success callback
and does reschedule. -/
theorem scan_failure_amended (s s1 s2 : St) (evs : List Ev)
    (hIF : s.inFlight ≠ 0)
    (h1 : step s Ev.respFail = some s1)
    (hq : s1.pending = []) (hq2 : s1.inFlight = 0)
    (hA : Ev.activate ∉ evs)
    (h2 : run s1 evs = some s2) :
    s1 = { s with inFlight := s.inFlight - 1 } ∧
    s2.dispatches = s1.dispatches ∧ s2.pending = [] ∧
    step s (Ev.respSuccess none) = some (scanCallback s none) ∧
    (scanCallback s none).pending = s.pending ++ [(s.nextId, scanPeriodMs)] := by
  simp only [step, hIF, ite_false, if_false, Option.some.injEq] at h1
  obtain ⟨d1, d2, _, _⟩ := quiet_run evs s1 s2 hA hq hq2 h2
  exact ⟨h1.symm, d1, d2, by simp [step, hIF], rfl⟩

theorem scan_failure_amended_witness :
    stAfterFail = { stWithRequest with inFlight := stWithRequest.inFlight - 1 } ∧
    stAfterFail.dispatches = stAfterFail.dispatches ∧
    stAfterFail.pending = [] ∧
    step stWithRequest (Ev.respSuccess none) = some (scanCallback stWithRequest none) ∧
    (scanCallback stWithRequest none).pending =
      stWithRequest.pending ++ [(stWithRequest.nextId, scanPeriodMs)] :=
  scan_failure_amended stWithRequest stAfterFail stAfterFail [] (by decide) rfl rfl rfl
    (by decide) rfl

/-- Claim C4 counterexample: activate then deactivate leaves the in-flight
request unguarded; its late success response schedules a timer whose
firing dispatches a further scan — dispatch count goes from 1 at
deactivation to 2 with no further activate. -/
theorem deactivate_stops_polling_cex :
    ((run St.init [Ev.activate, Ev.deactivate]).map St.dispatches = some 1) ∧
    ((run St.init [Ev.activate, Ev.deactivate, Ev.respSuccess (some []),
        Ev.timerFire 0]).map St.dispatches = some 2) ∧
    Ev.activate ∉ [Ev.respSuccess (some ([] : List AP)), Ev.timerFire 0] :=
  ⟨rfl, rfl, by decide⟩

/-- Claim C4 (amended): if at the moment of deactivation no scan request
is in flight and every pending timer is the one recorded in the stored
handle, then after `setup_wifi_on_deactivate` no further scan is ever
dispatched until the next activate. -/
theorem deactivate_stops_polling_amended (s s1 s2 : St) (evs : List Ev)
    (hIF : s.inFlight = 0)
    (hstored : ∀ p ∈ s.pending, s.timerVar = some p.1)
    (hnd : (s.pending.map Prod.fst).Nodup)
    (hd : step s Ev.deactivate = some s1)
    (hA : Ev.activate ∉ evs)
    (hr : run s1 evs = some s2) :
    s2.dispatches = s.dispatches := by
  simp only [step, Option.some.injEq] at hd
  subst hd
  have hp : (setup_wifi_on_deactivate s).pending = [] :=
    clearStored_eq_nil s.pending s.timerVar hstored hnd
  obtain ⟨d1, _, _, _⟩ := quiet_run evs _ s2 hA hp hIF hr
  exact d1

theorem deactivate_stops_polling_witness :
    (setup_wifi_on_deactivate stWithTimer).dispatches = stWithTimer.dispatches :=
  deactivate_stops_polling_amended stWithTimer (setup_wifi_on_deactivate stWithTimer)
    (setup_wifi_on_deactivate stWithTimer) [] rfl (by decide) (by decide) rfl
    (by decide) rfl

/-- Claim C5 counterexample: deactivating with a request in flight and
reactivating puts two requests in flight; each success response schedules
a timer, so two scheduled-not-yet-fired poll timers exist at once while
the view is active. -/
theorem single_pending_timer_cex :
    (run St.init [Ev.activate, Ev.deactivate, Ev.activate,
        Ev.respSuccess (some []), Ev.respSuccess (some [])]).map
      (fun s => (s.active, s.pending.length)) = some (true, 2) := rfl

/-- Claim C5 (amended): in every run from script load in which `activate`
is only delivered while no request is in flight and no timer is pending,
at most one scheduled-but-not-yet-fired poll timer exists at any time. -/
theorem single_pending_timer_amended (evs : List Ev) (s' : St)
    (h : QuietActivateRun St.init evs s') :
    s'.pending.length ≤ 1 := by
  have hout := quietRun_outstanding St.init s' evs h (by simp [St.init])
  omega

theorem single_pending_timer_witness :
    (setup_wifi_on_activate St.init).pending.length ≤ 1 :=
  single_pending_timer_amended [Ev.activate] (setup_wifi_on_activate St.init)
    (QuietActivateRun.cons St.init (setup_wifi_on_activate St.init)
      (setup_wifi_on_activate St.init) Ev.activate [] rfl (fun _ => ⟨rfl, rfl⟩)
      (QuietActivateRun.nil (setup_wifi_on_activate St.init)))

/-- Claim C6: deactivation only cancels the stored pending timer: the
known-APs table, the rendered region and the dispatch count are untouched;
with no pending poll it is a silent no-op on the timer list; and a
subsequent activate dispatches again with every pre-deactivation table
entry still present. -/
theorem deactivate_frame (s d a : St)
    (hd : step s Ev.deactivate = some d)
    (ha : step d Ev.activate = some a) :
    d.ssids = s.ssids ∧ d.dom = s.dom ∧ d.dispatches = s.dispatches ∧
    d.inFlight = s.inFlight ∧
    ((∀ p ∈ s.pending, s.timerVar ≠ some p.1) → d.pending = s.pending) ∧
    a.ssids = s.ssids ∧ a.dispatches = s.dispatches + 1 := by
  simp only [step, Option.some.injEq] at hd ha
  subst hd
  subst ha
  exact ⟨rfl, rfl, rfl, rfl,
    fun h => clearStored_eq_of_not_stored s.pending s.timerVar h, rfl, rfl⟩

theorem deactivate_frame_witness :
    (setup_wifi_on_deactivate stWithEntry).ssids = stWithEntry.ssids ∧
    (setup_wifi_on_deactivate stWithEntry).dom = stWithEntry.dom ∧
    (setup_wifi_on_deactivate stWithEntry).dispatches = stWithEntry.dispatches ∧
    (setup_wifi_on_deactivate stWithEntry).inFlight = stWithEntry.inFlight ∧
    ((∀ p ∈ stWithEntry.pending, stWithEntry.timerVar ≠ some p.1) →
      (setup_wifi_on_deactivate stWithEntry).pending = stWithEntry.pending) ∧
    (setup_wifi_on_activate (setup_wifi_on_deactivate stWithEntry)).ssids = stWithEntry.ssids ∧
    (setup_wifi_on_activate (setup_wifi_on_deactivate stWithEntry)).dispatches =
      stWithEntry.dispatches + 1 :=
  deactivate_frame stWithEntry (setup_wifi_on_deactivate stWithEntry)
    (setup_wifi_on_activate (setup_wifi_on_deactivate stWithEntry)) rfl rfl

end SetupWifi
